import Mathlib

/-!
Verification of the ledger reconciliation and enrichment engine of the
gmail-job-tracker repository (`gmail_sync.py`, `job_tracker.py`).

The ledger (the `jobs.csv` DataFrame) is embedded as a `List Record` where
`Record` carries the nine schema columns as strings.  Inbound email events
carry the four header-derived fields; the external date parser
(`email.utils.parsedate_to_datetime`) is modelled by giving each event its
parse result as an `Option DateTime`, and `parse_date` maps that result to
the `YYYY-MM-DD` string exactly as `gmail_sync.parse_date` does
(`dt.date().isoformat()` on success, `""` on failure).
-/

namespace JobTracker

/-- One row of the jobs ledger: the nine schema columns of `jobs.csv`.
All columns are strings (`gmail_sync.load_jobs_df` materializes them as
strings / empty strings). -/
structure Record where
  company : String
  role_title : String
  job_link : String
  applied_date : String
  status : String
  job_text : String
  summary : String
  skills : String
  salary : String
deriving DecidableEq, Repr

/-- The result of `email.utils.parsedate_to_datetime` on a parseable
`Date:` header: a timestamp in its original locale.  `tzOffsetMinutes` is
the UTC offset attached to the timestamp; `dateIso` below ignores it, as
`dt.date()` does (no UTC conversion). -/
structure DateTime where
  year : Nat
  month : Nat
  day : Nat
  hour : Nat
  minute : Nat
  second : Nat
  tzOffsetMinutes : Int
deriving DecidableEq, Repr

/-- Zero-pad a number to two digits, as `date.isoformat()` renders months
and days. -/
def pad2 (n : Nat) : String :=
  if n < 10 then "0" ++ toString n else toString n

/-- Zero-pad a number to four digits, as `date.isoformat()` renders years. -/
def pad4 (n : Nat) : String :=
  if n < 10 then "000" ++ toString n
  else if n < 100 then "00" ++ toString n
  else if n < 1000 then "0" ++ toString n
  else toString n

/-- Model of `dt.date().isoformat()`: the `YYYY-MM-DD` date component of the
timestamp, in its original locale (the timezone offset is not consulted). -/
def DateTime.dateIso (dt : DateTime) : String :=
  pad4 dt.year ++ "-" ++ pad2 dt.month ++ "-" ++ pad2 dt.day

/-- Model of `gmail_sync.parse_date`: convert the parse result of the email `Date`
header to `YYYY-MM-DD`; any parse failure (modelled as `none`) yields `""`. -/
def parse_date (parsed : Option DateTime) : String :=
  match parsed with
  | some dt => dt.dateIso
  | none => ""

/-- An inbound email event as the scans see it: the `From`, `Subject` and
snippet strings, plus the parse result of the `Date` header. -/
structure Event where
  sender : String
  subject : String
  snippet : String
  date : Option DateTime
deriving DecidableEq, Repr

/-- The duplicate mask of `scan_confirmations`:
`(df["role_title"] == role_title) & (df["applied_date"] == applied_date)`
with `role_title = subject` and `applied_date = parse_date(date_header)`. -/
def confirmMatch (e : Event) (r : Record) : Bool :=
  r.role_title == e.subject && r.applied_date == parse_date e.date

/-- The row `scan_confirmations` inserts for an unmatched event. -/
def confirmRow (e : Event) : Record :=
  { company := e.sender
    role_title := e.subject
    job_link := ""
    applied_date := parse_date e.date
    status := "Applied"
    job_text := e.snippet
    summary := ""
    skills := ""
    salary := "" }

/-- The body of the `scan_confirmations` loop for one message: skip if the
duplicate mask matches any row, else concat the new row. -/
def confirmStep (df : List Record) (e : Event) : List Record :=
  if df.any (confirmMatch e) then df else df ++ [confirmRow e]

/-- The function `gmail_sync.scan_confirmations` restricted to its ledger mutation: fold
the per-message step over the fetched events in retrieval order. -/
def scan_confirmations (events : List Event) (df : List Record) : List Record :=
  events.foldl confirmStep df

/-- The row `scan_rejections` inserts when no ledger row matches the
subject. -/
def rejectRow (e : Event) : Record :=
  { company := e.sender
    role_title := e.subject
    job_link := ""
    applied_date := parse_date e.date
    status := "Rejected"
    job_text := e.snippet
    summary := ""
    skills := ""
    salary := "" }

/-- The update `scan_rejections` applies to every row matched by
`df["role_title"] == subject`: `status` becomes `"Rejected"` and the
rejection snippet is appended to `job_text` (the `fillna("").astype(str)`
step is the identity here since `job_text` is a string). -/
def rejectUpdate (e : Event) (r : Record) : Record :=
  if r.role_title == e.subject then
    { r with status := "Rejected"
             job_text := r.job_text ++ "\n[Rejection snippet] " ++ e.snippet }
  else r

/-- The body of the `scan_rejections` loop for one message: if the subject
mask matches any row, apply the rejection update to all matched rows;
otherwise concat a new `Rejected` row. -/
def rejectStep (df : List Record) (e : Event) : List Record :=
  if df.any (fun r => r.role_title == e.subject) then
    df.map (rejectUpdate e)
  else df ++ [rejectRow e]

/-- The function `gmail_sync.scan_rejections` restricted to its ledger mutation. -/
def scan_rejections (events : List Event) (df : List Record) : List Record :=
  events.foldl rejectStep df

/-! ### Ledger store (`gmail_sync.load_jobs_df`) -/

/-- The expected column list of `load_jobs_df`. -/
def expectedColumns : List String :=
  ["company", "role_title", "job_link", "applied_date", "status",
   "job_text", "summary", "skills", "salary"]

/-- A persisted ledger file: a header row of column names and data rows of
cells aligned with the header. -/
structure CsvFile where
  columns : List String
  rows : List (List String)
deriving DecidableEq, Repr

/-- Look up the cell of a named column in one row: `none` when the column
is absent from the header (or the row has no cell under it). -/
def lookupCell : List String → List String → String → Option String
  | [], _, _ => none
  | _ :: _, [], _ => none
  | c :: cs, v :: vs, name => if c = name then some v else lookupCell cs vs name

/-- The value a loaded record carries for a named column: the file's cell
when the column exists, else `""` (the `df[col] = ""` backfill of
`load_jobs_df`). -/
def cellValue (cols cells : List String) (name : String) : String :=
  (lookupCell cols cells name).getD ""

/-- One loaded, schema-completed record. -/
def rowToRecord (cols cells : List String) : Record :=
  { company := cellValue cols cells "company"
    role_title := cellValue cols cells "role_title"
    job_link := cellValue cols cells "job_link"
    applied_date := cellValue cols cells "applied_date"
    status := cellValue cols cells "status"
    job_text := cellValue cols cells "job_text"
    summary := cellValue cols cells "summary"
    skills := cellValue cols cells "skills"
    salary := cellValue cols cells "salary" }

/-- Model of `gmail_sync.load_jobs_df`: `none` models "no `jobs.csv` on disk", which
yields the empty ledger over the expected columns; an existing file is read
row by row, each missing expected column materialized as `""`. -/
def load_jobs_df (file : Option CsvFile) : List Record :=
  match file with
  | none => []
  | some f => f.rows.map (rowToRecord f.columns)

/-- Dynamic column access on a loaded record, for stating the schema-
completion guarantee per column name. -/
def Record.col (r : Record) (name : String) : String :=
  if name = "company" then r.company
  else if name = "role_title" then r.role_title
  else if name = "job_link" then r.job_link
  else if name = "applied_date" then r.applied_date
  else if name = "status" then r.status
  else if name = "job_text" then r.job_text
  else if name = "summary" then r.summary
  else if name = "skills" then r.skills
  else if name = "salary" then r.salary
  else ""

/-! ### Enrichment backfill (`job_tracker.process_jobs`) -/

/-- The `skills` value of a parsed summarizer response: a JSON list of
strings, or any other (scalar) value carried as its `str()` rendering. -/
inductive SkillsValue where
  | list (xs : List String)
  | scalar (s : String)
deriving DecidableEq, Repr

/-- A successfully parsed summarizer response, the `result` dict with the
`.get` defaults already applied. -/
structure SummResult where
  summary : String
  skills : SkillsValue
  salary : String
deriving DecidableEq, Repr

/-- How `process_jobs` renders the `skills` value into the single stored
string: `", ".join(skills_list)` for a list, `str(skills_list)` otherwise. -/
def renderSkills : SkillsValue → String
  | SkillsValue.list xs => String.intercalate ", " xs
  | SkillsValue.scalar s => s

/-- The skip test of `process_jobs`: `row["summary"].strip()` is truthy,
i.e. the summary holds at least one non-whitespace character. -/
def summaryFilled (r : Record) : Bool :=
  r.summary.data.any (fun c => !c.isWhitespace)

/-- The body of the `process_jobs` loop for one row: rows with a filled
summary are skipped untouched; otherwise `summarize_job` is attempted
(`none` models the exception path), writing the three enrichment fields and
counting the row on success, leaving the row untouched on failure.
Returns the row's final state and its contribution to `updated`. -/
def processRow (summarize : Record → Option SummResult) (r : Record) :
    Record × Nat :=
  if summaryFilled r then (r, 0)
  else
    match summarize r with
    | some res =>
        ({ r with summary := res.summary
                  skills := renderSkills res.skills
                  salary := res.salary }, 1)
    | none => (r, 0)

/-- The function `job_tracker.process_jobs` restricted to its ledger mutation: the final
DataFrame and the `updated` counter. -/
def process_jobs (summarize : Record → Option SummResult) (df : List Record) :
    List Record × Nat :=
  (df.map (fun r => (processRow summarize r).1),
   (df.map (fun r => (processRow summarize r).2)).sum)

/-! ## Claims -/

/-- C1: for every rejection event and every ledger, if one or more ledger
records have `role_title` exactly equal to the event's subject, then the
rejection pass sets `status` to `"Rejected"` on every such matched record
and appends to each matched record's `job_text` the literal separator
`"\n[Rejection snippet] "` followed by the event's snippet, never replacing
the prior `job_text` content (the old content stays as a prefix); in
particular a record whose `status` is already `"Rejected"` keeps status
`"Rejected"` and only gains another appended snippet line. -/
theorem rejection_marks_every_match (df : List Record) (e : Event)
    (i : Fin df.length) (h : (df.get i).role_title = e.subject) :
    ∃ hlen : (rejectStep df e).length = df.length,
      ((rejectStep df e).get (Fin.cast hlen.symm i)).status = "Rejected" ∧
      ((rejectStep df e).get (Fin.cast hlen.symm i)).job_text
        = (df.get i).job_text ++ "\n[Rejection snippet] " ++ e.snippet := by
  have hany : (df.any fun r => r.role_title == e.subject) = true := by
    rw [List.any_eq_true]
    refine ⟨df.get i, df.get_mem i i.isLt, ?_⟩
    simp only [List.get_eq_getElem] at h
    simp [h]
  have hstep : rejectStep df e = df.map (rejectUpdate e) := by
    simp [rejectStep, hany]
  have hlen : (rejectStep df e).length = df.length := by simp [hstep]
  refine ⟨hlen, ?_⟩
  have hget : (rejectStep df e).get (Fin.cast hlen.symm i)
      = rejectUpdate e (df.get i) := by
    simp [hstep]
  rw [hget]
  simp only [List.get_eq_getElem] at h ⊢
  simp [rejectUpdate, h]

/-- Concrete ledger for the C1 witness: a single already-`Rejected` row. -/
def dfC1 : List Record :=
  [{ company := "Acme"
     role_title := "Software Engineer"
     job_link := ""
     applied_date := "2024-01-10"
     status := "Rejected"
     job_text := "Thanks for applying"
     summary := ""
     skills := ""
     salary := "" }]

/-- Concrete rejection event for the C1 witness. -/
def eC1 : Event :=
  { sender := "[email protected]"
    subject := "Software Engineer"
    snippet := "not moving forward"
    date := none }

/-- Witness for C1 at a concrete already-`Rejected` record. -/
theorem rejection_marks_every_match_witness :
    ((rejectStep dfC1 eC1).get ⟨0, by decide⟩).status = "Rejected" ∧
    ((rejectStep dfC1 eC1).get ⟨0, by decide⟩).job_text
      = (dfC1.get ⟨0, by decide⟩).job_text ++ "\n[Rejection snippet] "
          ++ eC1.snippet := by
  obtain ⟨hlen, h1, h2⟩ :=
    rejection_marks_every_match dfC1 eC1 ⟨0, by decide⟩ (by decide)
  exact ⟨h1, h2⟩

/-- C3: for every confirmation event, if some ledger record has
`role_title` equal to the event's subject and `applied_date` equal to the
event's normalized date (exact string equality, two empty dates counting
as equal), the event is discarded and the ledger is unchanged; otherwise a
new record is appended with `status = "Applied"`, `company` the sender,
`role_title` the subject, `job_text` the snippet, and `job_link`,
`summary`, `skills`, `salary` all empty. -/
theorem confirmation_dedup_or_insert (df : List Record) (e : Event) :
    confirmStep df e
      = if ∃ r ∈ df, r.role_title = e.subject
              ∧ r.applied_date = parse_date e.date
        then df
        else df ++ [{ company := e.sender
                      role_title := e.subject
                      job_link := ""
                      applied_date := parse_date e.date
                      status := "Applied"
                      job_text := e.snippet
                      summary := ""
                      skills := ""
                      salary := "" }] := by
  by_cases hd : ∃ r ∈ df, r.role_title = e.subject
      ∧ r.applied_date = parse_date e.date
  · have hany : df.any (confirmMatch e) = true := by
      rw [List.any_eq_true]
      obtain ⟨r, hr, h1, h2⟩ := hd
      exact ⟨r, hr, by simp [confirmMatch, h1, h2]⟩
    rw [if_pos hd]
    simp [confirmStep, hany]
  · have hany : df.any (confirmMatch e) = false := by
      rw [List.any_eq_false]
      intro r hr hmatch
      simp only [confirmMatch, Bool.and_eq_true, beq_iff_eq] at hmatch
      exact hd ⟨r, hr, hmatch.1, hmatch.2⟩
    rw [if_neg hd]
    simp [confirmStep, hany, confirmRow]

/-- C4: a rejection event whose subject matches no ledger record's
`role_title` makes the rejection pass grow the ledger by exactly one row,
appending a record with `status = "Rejected"`, `role_title` the subject,
`company` the sender, `job_text` the snippet, `applied_date` the event's
normalized date, and empty `summary`, `skills`, `salary`, `job_link`. -/
theorem rejection_no_match_inserts (df : List Record) (e : Event)
    (h : ∀ r ∈ df, r.role_title ≠ e.subject) :
    rejectStep df e
      = df ++ [{ company := e.sender
                 role_title := e.subject
                 job_link := ""
                 applied_date := parse_date e.date
                 status := "Rejected"
                 job_text := e.snippet
                 summary := ""
                 skills := ""
                 salary := "" }]
    ∧ (rejectStep df e).length = df.length + 1 := by
  have hany : (df.any fun r => r.role_title == e.subject) = false := by
    rw [List.any_eq_false]
    intro r hr
    simpa using h r hr
  constructor
  · simp [rejectStep, hany, rejectRow]
  · simp [rejectStep, hany]

/-- Concrete ledger for the C4 witness: one row whose title differs from
the event subject. -/
def dfC4 : List Record :=
  [{ company := "Acme"
     role_title := "Data Analyst"
     job_link := ""
     applied_date := "2024-01-10"
     status := "Applied"
     job_text := "Thanks for applying"
     summary := ""
     skills := ""
     salary := "" }]

/-- Concrete rejection event for the C4 witness. -/
def eC4 : Event :=
  { sender := "[email protected]"
    subject := "Software Engineer"
    snippet := "regret to inform you"
    date := some ⟨2024, 2, 3, 9, 30, 0, -300⟩ }

/-- Witness for C4 at a concrete unmatched rejection event. -/
theorem rejection_no_match_inserts_witness :
    rejectStep dfC4 eC4
      = dfC4 ++ [{ company := eC4.sender
                   role_title := eC4.subject
                   job_link := ""
                   applied_date := parse_date eC4.date
                   status := "Rejected"
                   job_text := eC4.snippet
                   summary := ""
                   skills := ""
                   salary := "" }]
    ∧ (rejectStep dfC4 eC4).length = dfC4.length + 1 :=
  rejection_no_match_inserts dfC4 eC4 (by decide)

/-! Helper lemmas about the confirmation fold. -/

theorem scan_confirmations_cons (e : Event) (es : List Event)
    (df : List Record) :
    scan_confirmations (e :: es) df
      = scan_confirmations es (confirmStep df e) := rfl

theorem confirmStep_matches_self (df : List Record) (e : Event) :
    (confirmStep df e).any (confirmMatch e) = true := by
  by_cases hany : df.any (confirmMatch e) = true
  · simp [confirmStep, hany]
  · have hanyf : df.any (confirmMatch e) = false := by simpa using hany
    simp [confirmStep, hanyf, List.any_append, confirmMatch, confirmRow]

theorem confirmStep_any_mono (df : List Record) (e : Event)
    (p : Record → Bool) (h : df.any p = true) :
    (confirmStep df e).any p = true := by
  unfold confirmStep
  split <;> simp [List.any_append, h]

theorem scan_confirmations_any_mono (events : List Event) (df : List Record)
    (p : Record → Bool) (h : df.any p = true) :
    (scan_confirmations events df).any p = true := by
  induction events generalizing df with
  | nil => simpa [scan_confirmations] using h
  | cons e es ih =>
    rw [scan_confirmations_cons]
    exact ih (confirmStep df e) (confirmStep_any_mono df e p h)

theorem scan_confirmations_matches (events : List Event) (df : List Record) :
    ∀ e ∈ events, (scan_confirmations events df).any (confirmMatch e) = true := by
  induction events generalizing df with
  | nil => simp
  | cons e' es ih =>
    intro e he
    rw [scan_confirmations_cons]
    rcases List.mem_cons.mp he with rfl | he'
    · exact scan_confirmations_any_mono es (confirmStep df e) (confirmMatch e)
        (confirmStep_matches_self df e)
    · exact ih (confirmStep df e') e he'

theorem scan_confirmations_all_dup (events : List Event) (df : List Record)
    (h : ∀ e ∈ events, df.any (confirmMatch e) = true) :
    scan_confirmations events df = df := by
  induction events with
  | nil => rfl
  | cons e es ih =>
    have hstep : confirmStep df e = df := by
      simp [confirmStep, h e (List.mem_cons_self e es)]
    rw [scan_confirmations_cons, hstep]
    exact ih (fun e' he' => h e' (List.mem_cons_of_mem e he'))

/-- C2: running the confirmation reconciliation pass twice with the same
event sequence yields exactly the ledger of running it once — after the
first pass every event has a `(role_title, applied_date)` match in the
ledger, so the second pass discards every event. -/
theorem confirmation_pass_idempotent (events : List Event)
    (df : List Record) :
    scan_confirmations events (scan_confirmations events df)
      = scan_confirmations events df :=
  scan_confirmations_all_dup events (scan_confirmations events df)
    (scan_confirmations_matches events df)

/-! Helper lemmas for the batch-deduplication invariant. -/

/-- The `(role_title, applied_date)` de-duplication key coincides on two
records. -/
def sameKey (r1 r2 : Record) : Prop :=
  r1.role_title = r2.role_title ∧ r1.applied_date = r2.applied_date

theorem confirmStep_grows (df : List Record) (e : Event) :
    ∃ t, confirmStep df e = df ++ t := by
  unfold confirmStep
  split
  · exact ⟨[], by simp⟩
  · exact ⟨[confirmRow e], rfl⟩

theorem scan_confirmations_grows (events : List Event) (df : List Record) :
    ∃ t, scan_confirmations events df = df ++ t := by
  induction events generalizing df with
  | nil => exact ⟨[], by simp [scan_confirmations]⟩
  | cons e es ih =>
    obtain ⟨t1, h1⟩ := confirmStep_grows df e
    obtain ⟨t2, h2⟩ := ih (confirmStep df e)
    exact ⟨t1 ++ t2, by rw [scan_confirmations_cons, h2, h1, List.append_assoc]⟩

theorem scan_confirmations_no_clash (events : List Event) :
    ∀ df : List Record, ∀ r ∈ df,
      ∀ r' ∈ (scan_confirmations events df).drop df.length, ¬ sameKey r r' := by
  induction events with
  | nil =>
    intro df r hr r' hr'
    simp [scan_confirmations, List.drop_length] at hr'
  | cons e es ih =>
    intro df r hr r' hr'
    rw [scan_confirmations_cons] at hr'
    by_cases hany : df.any (confirmMatch e) = true
    · have hstep : confirmStep df e = df := by simp [confirmStep, hany]
      rw [hstep] at hr'
      exact ih df r hr r' hr'
    · have hanyf : df.any (confirmMatch e) = false := by simpa using hany
      have hstep : confirmStep df e = df ++ [confirmRow e] := by
        simp [confirmStep, hanyf]
      rw [hstep] at hr'
      obtain ⟨t, ht⟩ := scan_confirmations_grows es (df ++ [confirmRow e])
      rw [ht, List.append_assoc, List.drop_left] at hr'
      rcases List.mem_cons.mp hr' with rfl | hmem
      · have hnm := List.any_eq_false.mp hanyf r hr
        simp only [confirmMatch, Bool.and_eq_true, beq_iff_eq] at hnm
        intro hk
        exact hnm ⟨by simpa [confirmRow] using hk.1,
                   by simpa [confirmRow] using hk.2⟩
      · have hr'' : r' ∈ (scan_confirmations es
            (df ++ [confirmRow e])).drop (df ++ [confirmRow e]).length := by
          rw [ht, List.drop_left]
          exact hmem
        exact ih (df ++ [confirmRow e]) r (List.mem_append_left _ hr) r' hr''

/-- C10: within a single confirmation pass the duplicate check runs
against the ledger as already mutated by earlier events of the same pass,
so among the records a single pass appends to the ledger, no two share the
`(role_title, applied_date)` pair: a second event in the batch with the
same subject and normalized date is discarded by the duplicate check. -/
theorem confirmation_batch_distinct_keys (events : List Event)
    (df : List Record) :
    ((scan_confirmations events df).drop df.length).Pairwise
      (fun r1 r2 => ¬ sameKey r1 r2) := by
  induction events generalizing df with
  | nil => simp [scan_confirmations, List.drop_length]
  | cons e es ih =>
    rw [scan_confirmations_cons]
    by_cases hany : df.any (confirmMatch e) = true
    · have hstep : confirmStep df e = df := by simp [confirmStep, hany]
      rw [hstep]
      exact ih df
    · have hanyf : df.any (confirmMatch e) = false := by simpa using hany
      have hstep : confirmStep df e = df ++ [confirmRow e] := by
        simp [confirmStep, hanyf]
      rw [hstep]
      obtain ⟨t, ht⟩ := scan_confirmations_grows es (df ++ [confirmRow e])
      have hdrop : (scan_confirmations es (df ++ [confirmRow e])).drop df.length
          = confirmRow e :: t := by
        rw [ht, List.append_assoc, List.drop_left]
        rfl
      rw [hdrop]
      refine List.pairwise_cons.mpr ⟨?_, ?_⟩
      · intro r' hr'
        have hr'' : r' ∈ (scan_confirmations es
            (df ++ [confirmRow e])).drop (df ++ [confirmRow e]).length := by
          rw [ht, List.drop_left]
          exact hr'
        exact scan_confirmations_no_clash es (df ++ [confirmRow e])
          (confirmRow e) (List.mem_append_right df (List.mem_singleton.mpr rfl))
          r' hr''
      · have hp := ih (df ++ [confirmRow e])
        rw [ht, List.drop_left] at hp
        exact hp

/-! ## Backfill claims -/

/-- C5: a record whose `summary` is non-empty after trimming whitespace
(i.e. not all of its characters are whitespace) is left completely
unchanged by one backfill pass, regardless of the summarizer: `summary`,
`skills`, `salary` and every other field keep their values, so only
records with empty or whitespace-only `summary` are eligible for
enrichment. -/
theorem backfill_preserves_filled (summarize : Record → Option SummResult)
    (df : List Record) (i : Fin df.length)
    (h : ¬ ∀ c ∈ (df.get i).summary.data, c.isWhitespace = true) :
    ∃ hlen : (process_jobs summarize df).1.length = df.length,
      (process_jobs summarize df).1.get (Fin.cast hlen.symm i) = df.get i := by
  have hf : summaryFilled (df.get i) = true := by
    rw [summaryFilled, List.any_eq_true]
    push_neg at h
    obtain ⟨c, hc, hw⟩ := h
    exact ⟨c, hc, by simp [hw]⟩
  have hlen : (process_jobs summarize df).1.length = df.length := by
    simp [process_jobs]
  refine ⟨hlen, ?_⟩
  have hget : (process_jobs summarize df).1.get (Fin.cast hlen.symm i)
      = (processRow summarize (df.get i)).1 := by
    simp [process_jobs]
  rw [hget, processRow, if_pos hf]

/-- Concrete ledger for the C5 witness: one already-enriched record. -/
def dfC5 : List Record :=
  [{ company := "Acme"
     role_title := "Software Engineer"
     job_link := ""
     applied_date := "2024-01-10"
     status := "Applied"
     job_text := "Thanks for applying"
     summary := "Backend role at Acme"
     skills := "Python"
     salary := "unknown" }]

/-- A summarizer that always answers, used to show C5 holds regardless of
the summarizer's output. -/
def sC5 : Record → Option SummResult :=
  fun _ => some { summary := "OVERWRITE"
                  skills := SkillsValue.list ["OVERWRITE"]
                  salary := "OVERWRITE" }

/-- Witness for C5: the enriched record survives a pass untouched even
though the summarizer would have returned new values. -/
theorem backfill_preserves_filled_witness :
    (process_jobs sC5 dfC5).1.get ⟨0, by decide⟩ = dfC5.get ⟨0, by decide⟩ := by
  obtain ⟨hlen, hg⟩ :=
    backfill_preserves_filled sC5 dfC5 ⟨0, by decide⟩ (by decide)
  exact hg

/-- Per-row contribution of the `updated` counter, summed over the ledger,
counts exactly the eligible records whose summarization succeeds. -/
theorem process_jobs_count (summarize : Record → Option SummResult)
    (df : List Record) :
    (df.map (fun r => (processRow summarize r).2)).sum
      = df.countP (fun r => !summaryFilled r && (summarize r).isSome) := by
  induction df with
  | nil => simp
  | cons r rest ih =>
    rw [List.map_cons, List.sum_cons, ih, List.countP_cons]
    by_cases hf : summaryFilled r
    · simp [processRow, hf]
    · have hf' : summaryFilled r = false := by simpa using hf
      cases hs : summarize r with
      | some res => simp [processRow, hf', hs, Nat.add_comm]
      | none => simp [processRow, hf', hs]

/-- Every eligible record either succeeds or fails, so the eligible count
splits into the success count plus the failure count. -/
theorem countP_eligible_split (summarize : Record → Option SummResult)
    (df : List Record) :
    df.countP (fun r => !summaryFilled r)
      = df.countP (fun r => !summaryFilled r && (summarize r).isSome)
        + df.countP (fun r => !summaryFilled r && (summarize r).isNone) := by
  induction df with
  | nil => simp
  | cons r rest ih =>
    simp only [List.countP_cons]
    rw [ih]
    by_cases hf : summaryFilled r
    · simp [hf]
    · have hf' : summaryFilled r = false := by simpa using hf
      cases hs : summarize r with
      | some res => simp [hf', hs]; omega
      | none => simp [hf', hs]; omega

/-- C6: with N the number of eligible records and k the number of eligible
records on which the summarizer fails, one backfill pass returns the
updated count N − k, and every eligible record whose summarization fails
is left untouched (hence still eligible next pass); a failure on one
record never prevents processing of the others, which is why the count is
exactly N − k. -/
theorem backfill_partial_failure (summarize : Record → Option SummResult)
    (df : List Record) :
    (process_jobs summarize df).2
      = df.countP (fun r => !summaryFilled r)
        - df.countP (fun r => !summaryFilled r && (summarize r).isNone)
    ∧ ∀ i : Fin df.length, summaryFilled (df.get i) = false →
        summarize (df.get i) = none →
        ∃ hlen : (process_jobs summarize df).1.length = df.length,
          (process_jobs summarize df).1.get (Fin.cast hlen.symm i)
            = df.get i := by
  constructor
  · have h1 : (process_jobs summarize df).2
        = df.countP (fun r => !summaryFilled r && (summarize r).isSome) := by
      rw [process_jobs]
      exact process_jobs_count summarize df
    rw [h1, countP_eligible_split summarize df]
    omega
  · intro i hf hs
    have hlen : (process_jobs summarize df).1.length = df.length := by
      simp [process_jobs]
    refine ⟨hlen, ?_⟩
    have hget : (process_jobs summarize df).1.get (Fin.cast hlen.symm i)
        = (processRow summarize (df.get i)).1 := by
      simp [process_jobs]
    rw [hget, processRow, if_neg (by simpa using hf), hs]

/-- Concrete ledger for the C6 witness: two eligible records. -/
def dfC6 : List Record :=
  [{ company := "Acme"
     role_title := "A"
     job_link := ""
     applied_date := ""
     status := "Applied"
     job_text := "text A"
     summary := ""
     skills := ""
     salary := "" },
   { company := "Beta"
     role_title := "B"
     job_link := ""
     applied_date := ""
     status := "Applied"
     job_text := "text B"
     summary := ""
     skills := ""
     salary := "" }]

/-- A summarizer that succeeds on title `"A"` and fails (raises) on
everything else. -/
def sC6 : Record → Option SummResult :=
  fun r =>
    if r.role_title = "A" then
      some { summary := "About A"
             skills := SkillsValue.list ["x", "y"]
             salary := "unknown" }
    else none

/-- Witness for C6: two eligible records, one deterministic failure, so
the pass reports one update and the failed record is untouched. -/
theorem backfill_partial_failure_witness :
    (process_jobs sC6 dfC6).2 = 1 ∧
    (process_jobs sC6 dfC6).1.get ⟨1, by decide⟩ = dfC6.get ⟨1, by decide⟩ := by
  have h := backfill_partial_failure sC6 dfC6
  refine ⟨?_, ?_⟩
  · rw [h.1]
    decide
  · obtain ⟨hlen, hg⟩ := h.2 ⟨1, by decide⟩ (by decide) (by decide)
    exact hg

/-- C7: an eligible record on which the summarizer succeeds gets the
returned `summary` verbatim, the returned `skills` joined with `", "` in
the returned order when it is a list (its string form when a scalar), the
returned `salary` verbatim, and contributes exactly one to the `updated`
counter; all other fields of the record are kept. -/
theorem backfill_success_writes (summarize : Record → Option SummResult)
    (r : Record) (rest : List Record) (res : SummResult)
    (h1 : summaryFilled r = false) (h2 : summarize r = some res) :
    (process_jobs summarize (r :: rest)).1
      = { r with summary := res.summary
                 skills := match res.skills with
                   | SkillsValue.list xs => String.intercalate ", " xs
                   | SkillsValue.scalar sv => sv
                 salary := res.salary } :: (process_jobs summarize rest).1
    ∧ (process_jobs summarize (r :: rest)).2
        = (process_jobs summarize rest).2 + 1 := by
  have hsk : renderSkills res.skills
      = (match res.skills with
         | SkillsValue.list xs => String.intercalate ", " xs
         | SkillsValue.scalar sv => sv) := by
    cases res.skills <;> rfl
  constructor
  · simp [process_jobs, processRow, h1, h2, hsk]
  · simp [process_jobs, processRow, h1, h2, Nat.add_comm]

/-- Concrete eligible record for the C7 witness. -/
def rC7 : Record :=
  { company := "Acme"
    role_title := "Software Engineer"
    job_link := ""
    applied_date := "2024-01-10"
    status := "Applied"
    job_text := "Thanks for applying"
    summary := "   "
    skills := ""
    salary := "" }

/-- A summarizer answering a fixed parsed response with a skills list. -/
def sC7 : Record → Option SummResult :=
  fun _ => some { summary := "Backend engineering role"
                  skills := SkillsValue.list ["Python", "SQL"]
                  salary := "unknown" }

/-- Witness for C7: the fixed response is written verbatim, the skills
list is joined with `", "` in order, and the counter rises by one. -/
theorem backfill_success_writes_witness :
    (process_jobs sC7 [rC7]).1
      = { rC7 with summary := "Backend engineering role"
                   skills := "Python, SQL"
                   salary := "unknown" } :: (process_jobs sC7 []).1
    ∧ (process_jobs sC7 [rC7]).2 = (process_jobs sC7 []).2 + 1 := by
  have h := backfill_success_writes sC7 rC7 []
    { summary := "Backend engineering role"
      skills := SkillsValue.list ["Python", "SQL"]
      salary := "unknown" } (by decide) (by decide)
  simpa using h

/-! ## Ledger store and date claims -/

theorem lookupCell_of_not_mem (cols : List String) (name : String)
    (h : name ∉ cols) : ∀ cells, lookupCell cols cells name = none := by
  induction cols with
  | nil =>
    intro cells
    cases cells <;> rfl
  | cons c cs ih =>
    intro cells
    cases cells with
    | nil => rfl
    | cons v vs =>
      have hne : ¬ c = name := fun hc => h (hc ▸ List.mem_cons_self c cs)
      simp [lookupCell, hne, ih (fun hm => h (List.mem_cons_of_mem c hm)) vs]

/-- C8: loading yields schema-complete records — a record carries all nine
schema columns by construction, every expected column absent from the file
is materialized as the empty string on every loaded record (in particular
a file without a `salary` column loads with `salary = ""` everywhere), and
with no persisted state the load yields the empty ledger. -/
theorem load_schema_completion :
    load_jobs_df none = []
    ∧ ∀ (f : CsvFile) (name : String), name ∈ expectedColumns →
        name ∉ f.columns →
        ∀ r ∈ load_jobs_df (some f), r.col name = "" := by
  refine ⟨rfl, ?_⟩
  intro f name hname hmiss r hr
  simp only [load_jobs_df, List.mem_map] at hr
  obtain ⟨cells, hcells, rfl⟩ := hr
  have hnone := lookupCell_of_not_mem f.columns name hmiss
  simp only [expectedColumns, List.mem_cons, List.not_mem_nil, or_false] at hname
  rcases hname with rfl | rfl | rfl | rfl | rfl | rfl | rfl | rfl | rfl <;>
    simp [Record.col, rowToRecord, cellValue, hnone]

/-- Concrete persisted file for the C8 witness: the `salary` column is
missing, the other eight are present. -/
def fC8 : CsvFile :=
  { columns := ["company", "role_title", "job_link", "applied_date",
                "status", "job_text", "summary", "skills"]
    rows := [["Acme", "Software Engineer", "", "2024-01-10", "Applied",
              "Thanks for applying", "", "Python"]] }

/-- Witness for C8 on a file missing the `salary` column. -/
theorem load_schema_completion_witness :
    load_jobs_df none = []
    ∧ ((load_jobs_df (some fC8)).get ⟨0, by decide⟩).col "salary" = "" := by
  have h := load_schema_completion
  refine ⟨h.1, ?_⟩
  exact h.2 fC8 "salary" (by decide) (by decide) _
    ((load_jobs_df (some fC8)).get_mem 0 (by decide))

/-- C9: date normalization is total with no error outcome — a failed parse
yields `""`, a successful parse yields the zero-padded ISO `YYYY-MM-DD`
date component of the timestamp, depending only on its year, month and day
in the original locale (never on the time of day or the timezone offset,
i.e. no UTC conversion) — and an event whose date failed to parse is still
fully processed by both reconciliation passes with `applied_date = ""`:
the confirmation pass discards it or inserts it with an empty date, and
the rejection pass transitions its subject matches or inserts it with an
empty date. -/
theorem parse_date_total_and_degrading :
    parse_date none = ""
    ∧ (∀ dt : DateTime, parse_date (some dt)
        = pad4 dt.year ++ "-" ++ pad2 dt.month ++ "-" ++ pad2 dt.day)
    ∧ (∀ (y mo d h1 m1 s1 h2 m2 s2 : Nat) (z1 z2 : Int),
        parse_date (some ⟨y, mo, d, h1, m1, s1, z1⟩)
          = parse_date (some ⟨y, mo, d, h2, m2, s2, z2⟩))
    ∧ ∀ e : Event, e.date = none → ∀ df : List Record,
        (confirmStep df e = df
          ∨ confirmStep df e
              = df ++ [{ company := e.sender
                         role_title := e.subject
                         job_link := ""
                         applied_date := ""
                         status := "Applied"
                         job_text := e.snippet
                         summary := ""
                         skills := ""
                         salary := "" }])
        ∧ (rejectStep df e
            = df.map (fun r =>
                if r.role_title = e.subject then
                  { r with status := "Rejected"
                           job_text := r.job_text
                             ++ "\n[Rejection snippet] " ++ e.snippet }
                else r)
          ∨ rejectStep df e
              = df ++ [{ company := e.sender
                         role_title := e.subject
                         job_link := ""
                         applied_date := ""
                         status := "Rejected"
                         job_text := e.snippet
                         summary := ""
                         skills := ""
                         salary := "" }]) := by
  refine ⟨rfl, fun dt => rfl, fun y mo d h1 m1 s1 h2 m2 s2 z1 z2 => rfl, ?_⟩
  intro e hd df
  constructor
  · by_cases hany : df.any (confirmMatch e) = true
    · exact Or.inl (by simp [confirmStep, hany])
    · have hanyf : df.any (confirmMatch e) = false := by simpa using hany
      exact Or.inr (by simp [confirmStep, hanyf, confirmRow, hd, parse_date])
  · by_cases hany : (df.any fun r => r.role_title == e.subject) = true
    · refine Or.inl ?_
      have hfun : rejectUpdate e = fun r =>
          if r.role_title = e.subject then
            { r with status := "Rejected"
                     job_text := r.job_text
                       ++ "\n[Rejection snippet] " ++ e.snippet }
          else r := by
        funext r
        simp [rejectUpdate]
      rw [show rejectStep df e = df.map (rejectUpdate e) by
            simp [rejectStep, hany],
          hfun]
    · have hanyf : (df.any fun r => r.role_title == e.subject) = false := by
        simpa using hany
      exact Or.inr (by simp [rejectStep, hanyf, rejectRow, hd, parse_date])

/-- Concrete unparseable-date event for the C9 witness. -/
def eC9 : Event :=
  { sender := "[email protected]"
    subject := "Data Intern"
    snippet := "we received your application"
    date := none }

/-- Witness for C9: the empty ledger gains the event as an `Applied` row
with an empty date, and a parseable timestamp renders as its padded ISO
date. -/
theorem parse_date_total_and_degrading_witness :
    parse_date none = ""
    ∧ parse_date (some ⟨2024, 1, 10, 23, 59, 0, -300⟩) = "2024-01-10"
    ∧ (confirmStep [] eC9 = []
        ∨ confirmStep [] eC9
            = [] ++ [{ company := eC9.sender
                       role_title := eC9.subject
                       job_link := ""
                       applied_date := ""
                       status := "Applied"
                       job_text := eC9.snippet
                       summary := ""
                       skills := ""
                       salary := "" }]) := by
  have h := parse_date_total_and_degrading
  refine ⟨h.1, ?_, (h.2.2.2 eC9 rfl []).1⟩
  rw [h.2.1 ⟨2024, 1, 10, 23, 59, 0, -300⟩]
  decide

end JobTracker
